import Mathlib

/-!
Verification of the checkout / order-lifecycle subsystem of an e-commerce
backend.  The definitions below are a shallow embedding of:

* `OrdersService.createOrderFromCart` (checkout engine),
* `OrdersService.updateOrderStatus` and `getValidStatusTransitions`
  (order status engine),
* `OrderManagementService.updateOrderStatus` and `bulkUpdateOrders`
  (admin-dashboard status mutations),
* `NotificationService.notifyNewOrder` / `sendOrderStatusUpdate`
  (modelled as emitted events).

Monetary values are rationals; JavaScript `Number(x.toFixed(2))` is
modelled by `round2` and `Math.round` by `roundInt`.  Database writes are
explicit state passing on a `DB` record; each service call returns either
an error paired with the state at throw time, or a result paired with the
final state and the list of emitted side-effect events in program order.
-/

inductive OrderStatus
  | pending
  | confirmed
  | processing
  | shipped
  | delivered
  | cancelled
deriving DecidableEq, Repr

def statusToString : OrderStatus → String
  | .pending => "pending"
  | .confirmed => "confirmed"
  | .processing => "processing"
  | .shipped => "shipped"
  | .delivered => "delivered"
  | .cancelled => "cancelled"

structure ShippingAddress where
  fullName : String
  phoneNumber : String
  streetAddress : String
  city : String
  region : String
  postalCode : String
  country : String
deriving DecidableEq, Repr

structure Product where
  id : Nat
  name : String
  price : ℚ
  salePrice : Option ℚ
  isOnSale : Bool
  images : List String
  stock : Nat
  isActive : Bool
deriving DecidableEq, Repr

structure CartItem where
  productId : Nat
  quantity : Nat
  size : Option String
  color : Option String
deriving DecidableEq, Repr

structure Cart where
  userId : Nat
  items : List CartItem
deriving DecidableEq, Repr

structure OrderItem where
  productId : Nat
  productName : String
  productImage : String
  price : ℚ
  quantity : Nat
  size : Option String
  color : Option String
deriving DecidableEq, Repr

structure Order where
  id : Nat
  userId : Nat
  orderNumber : String
  items : List OrderItem
  subtotal : ℚ
  tax : ℚ
  total : ℚ
  status : OrderStatus
  shippingAddress : ShippingAddress
  orderNotes : String
  trackingNumber : Option String
  adminNotes : Option String
deriving DecidableEq, Repr

structure User where
  id : Nat
  firstName : String
  lastName : String
deriving DecidableEq, Repr

structure DB where
  products : List Product
  carts : List Cart
  orders : List Order
  users : List User
deriving DecidableEq, Repr

/-- `Number(x.toFixed(2))` on a nonnegative amount: round to 2 decimals. -/
def round2 (q : ℚ) : ℚ := ((q * 100 + 1 / 2).floor : ℚ) / 100

/-- JavaScript `Math.round`: round to the nearest integer, half toward +∞. -/
def roundInt (q : ℚ) : ℤ := (q + 1 / 2).floor

/-- JavaScript truthiness for an optional string: present and nonempty. -/
def strTruthy : Option String → Bool
  | some s => s ≠ ""
  | none => false

/-- `opt || dflt` for strings: falsy (absent or empty) falls back. -/
def strOrDefault (opt : Option String) (dflt : String) : String :=
  match opt with
  | some s => if s = "" then dflt else s
  | none => dflt

/-- `product?.name || 'Unknown'`. -/
def nameOrUnknown (n : String) : String :=
  if n = "" then "Unknown" else n

def findProduct (db : DB) (pid : Nat) : Option Product :=
  db.products.find? (fun p => p.id == pid)

def findCart (db : DB) (uid : Nat) : Option Cart :=
  db.carts.find? (fun c => c.userId == uid)

def findOrder (db : DB) (oid : Nat) : Option Order :=
  db.orders.find? (fun o => o.id == oid)

def findUser (db : DB) (uid : Nat) : Option User :=
  db.users.find? (fun u => u.id == uid)

/-- Per-item price: `product.isOnSale && product.salePrice ? product.salePrice
: product.price` — the sale price is used only when the flag is set and the
sale price is truthy (present and nonzero). -/
def itemPrice (p : Product) : ℚ :=
  match p.salePrice with
  | some sp => if p.isOnSale && sp != 0 then sp else p.price
  | none => p.price

/-- The fixed placeholder shipping address substituted when the checkout
request omits one. -/
def demoAddress : ShippingAddress :=
  { fullName := "Demo User"
    phoneNumber := "+1-555-0123"
    streetAddress := "123 Main Street"
    city := "New York"
    region := "NY"
    postalCode := "10001"
    country := "US" }

structure CreateOrderDto where
  shippingAddress : Option ShippingAddress
  orderNotes : Option String
deriving DecidableEq, Repr

inductive CheckoutError
  | cartEmpty
  | productUnavailable (name : String)
  | insufficientStock (name : String) (available requested : Nat)
deriving DecidableEq, Repr

structure StockUpdate where
  productId : Nat
  newStock : Nat
deriving DecidableEq, Repr

structure AdminOrderNotification where
  orderId : Nat
  userId : Nat
  customerName : String
  totalAmount : ℤ
  itemCount : Nat
  status : OrderStatus
deriving DecidableEq, Repr

structure UserStatusNotification where
  orderId : Nat
  status : OrderStatus
  trackingNumber : Option String
deriving DecidableEq, Repr

/-- Side effects emitted by the engines, in program order. -/
inductive Event
  | orderSaved (orderId : Nat)
  | adminNotified (n : AdminOrderNotification)
  | stockSet (productId : Nat) (newStock : Nat)
  | cartCleared (userId : Nat)
  | orderUpdated (orderId : Nat)
  | userNotified (userId : Nat) (n : UserStatusNotification)
deriving DecidableEq, Repr

def saveOrder (db : DB) (o : Order) : DB :=
  { db with orders := db.orders ++ [o] }

def setStock (db : DB) (pid : Nat) (st : Nat) : DB :=
  { db with products :=
      db.products.map (fun p => if p.id == pid then { p with stock := st } else p) }

def applyStockUpdates : DB → List StockUpdate → DB
  | db, [] => db
  | db, su :: rest => applyStockUpdates (setStock db su.productId su.newStock) rest

def clearCart (db : DB) (uid : Nat) : DB :=
  { db with carts :=
      db.carts.map (fun c => if c.userId == uid then { c with items := [] } else c) }

def updateOrderIn (db : DB) (oid : Nat) (f : Order → Order) : DB :=
  { db with orders :=
      db.orders.map (fun o => if o.id == oid then f o else o) }

/-- The validation loop of `createOrderFromCart` (lines 45–79): per cart
entry, resolve the product, reject missing/inactive products and
insufficient stock, otherwise accumulate the order item snapshot, the
running subtotal and the prepared stock update. -/
def validateItems (db : DB) : List CartItem →
    Except CheckoutError (List OrderItem × ℚ × List StockUpdate)
  | [] => .ok ([], 0, [])
  | ci :: rest =>
    match findProduct db ci.productId with
    | none => .error (.productUnavailable "Unknown")
    | some p =>
      if !p.isActive then
        .error (.productUnavailable (nameOrUnknown p.name))
      else if p.stock < ci.quantity then
        .error (.insufficientStock p.name p.stock ci.quantity)
      else
        match validateItems db rest with
        | .error e => .error e
        | .ok (ois, sub, ups) =>
          .ok ({ productId := p.id
                 productName := p.name
                 productImage := p.images.headD ""
                 price := itemPrice p
                 quantity := ci.quantity
                 size := ci.size
                 color := ci.color } :: ois,
               itemPrice p * ci.quantity + sub,
               { productId := p.id, newStock := p.stock - ci.quantity } :: ups)

namespace OrdersService

/-- `OrdersService.createOrderFromCart`: the checkout engine.  `orderNumber`
and `newOrderId` stand for the generated order number and the database id of
the inserted document.  On an error, the returned state is the state at
throw time; on success, the returned order, final state, and emitted events
in program order. -/
def createOrderFromCart (db : DB) (userId : Nat) (dto : CreateOrderDto)
    (orderNumber : String) (newOrderId : Nat) :
    Except (CheckoutError × DB) (Order × DB × List Event) :=
  match findCart db userId with
  | none => .error (.cartEmpty, db)
  | some cart =>
    if cart.items.isEmpty then .error (.cartEmpty, db)
    else
      match validateItems db cart.items with
      | .error e => .error (e, db)
      | .ok (orderItems, subtotal, stockUpdates) =>
        let tax := subtotal * (1 / 10)
        let total := subtotal + tax
        let order : Order :=
          { id := newOrderId
            userId := userId
            orderNumber := orderNumber
            items := orderItems
            subtotal := round2 subtotal
            tax := round2 tax
            total := round2 total
            status := .pending
            shippingAddress := dto.shippingAddress.getD demoAddress
            orderNotes := strOrDefault dto.orderNotes "Order placed via demo cart"
            trackingNumber := none
            adminNotes := none }
        let db1 := saveOrder db order
        let evs1 : List Event := [.orderSaved newOrderId]
        let evs2 : List Event :=
          match findUser db userId with
          | some u =>
            evs1 ++ [.adminNotified
              { orderId := newOrderId
                userId := userId
                customerName := u.firstName ++ " " ++ u.lastName
                totalAmount := roundInt total
                itemCount := orderItems.length
                status := .pending }]
          | none => evs1
        let db3 := applyStockUpdates db1 stockUpdates
        let evs3 := evs2 ++ stockUpdates.map (fun su => Event.stockSet su.productId su.newStock)
        let db4 := clearCart db3 userId
        let evs4 := evs3 ++ [.cartCleared userId]
        .ok (order, db4, evs4)

/-- The transition table of `getValidStatusTransitions` (lines 371–382). -/
def getValidStatusTransitions : OrderStatus → List OrderStatus
  | .pending => [.confirmed, .cancelled]
  | .confirmed => [.processing, .cancelled]
  | .processing => [.shipped, .cancelled]
  | .shipped => [.delivered]
  | .delivered => []
  | .cancelled => []

structure UpdateOrderStatusDto where
  status : OrderStatus
  statusNote : Option String
deriving DecidableEq, Repr

inductive UpdateError
  | orderNotFound
  | invalidTransition (current requested : OrderStatus)
deriving DecidableEq, Repr

/-- The error message attached to each `UpdateError`; `invalidTransition`
names both the current and the requested status. -/
def updateErrorMessage : UpdateError → String
  | .orderNotFound => "Order not found"
  | .invalidTransition c r =>
    "Cannot change status from " ++ statusToString c ++ " to " ++ statusToString r

/-- `OrdersService.updateOrderStatus` (lines 321–368): look up the order,
validate the transition against the table, set the status, append a
timestamped note line when a truthy note is supplied, persist, then notify
the owning user (the call passes only order id and status — no tracking
number). -/
def updateOrderStatus (db : DB) (orderId : Nat) (dto : UpdateOrderStatusDto)
    (now : String) :
    Except (UpdateError × DB) (Order × DB × List Event) :=
  match findOrder db orderId with
  | none => .error (.orderNotFound, db)
  | some order =>
    if dto.status ∈ getValidStatusTransitions order.status then
      let notes :=
        if strTruthy dto.statusNote then
          order.orderNotes ++ "\n[" ++ now ++ "] Status changed to "
            ++ statusToString dto.status ++ ": " ++ (dto.statusNote.getD "")
        else order.orderNotes
      let updated := { order with status := dto.status, orderNotes := notes }
      let db1 := updateOrderIn db orderId (fun _ => updated)
      .ok (updated, db1,
        [.orderUpdated orderId,
         .userNotified order.userId
           { orderId := orderId, status := dto.status, trackingNumber := none }])
    else
      .error (.invalidTransition order.status dto.status, db)

end OrdersService

namespace OrderManagementService

/-- `OrderManagementService.updateOrderStatus` (lines 164–206): look up the
order, then `$set` the requested status (and tracking number / admin notes
when truthy) with no transition validation, then notify the customer with
the updated order's status and tracking number. -/
def updateOrderStatus (db : DB) (orderId : Nat) (status : OrderStatus)
    (trackingNumber adminNotes : Option String) :
    Except (OrdersService.UpdateError × DB) (Order × DB × List Event) :=
  match findOrder db orderId with
  | none => .error (.orderNotFound, db)
  | some _ =>
    let db1 := updateOrderIn db orderId (fun o =>
      { o with
        status := status
        trackingNumber :=
          if strTruthy trackingNumber then trackingNumber else o.trackingNumber
        adminNotes :=
          if strTruthy adminNotes then adminNotes else o.adminNotes })
    match findOrder db1 orderId with
    | some updated =>
      .ok (updated, db1,
        [.orderUpdated orderId,
         .userNotified updated.userId
           { orderId := orderId
             status := updated.status
             trackingNumber := updated.trackingNumber }])
    | none => .error (.orderNotFound, db1)

structure BulkOrderUpdate where
  orderIds : List Nat
  status : OrderStatus
  trackingNumber : Option String
  notes : Option String
deriving DecidableEq, Repr

inductive BulkError
  | orderIdsRequired
deriving DecidableEq, Repr

/-- `OrderManagementService.bulkUpdateOrders` (lines 211–255): reject an
empty id list, otherwise `$set` the single status (and truthy tracking
number / notes) on every order whose id is in the list — no per-order
transition validation — then notify each matched order's customer. -/
def bulkUpdateOrders (db : DB) (b : BulkOrderUpdate) :
    Except (BulkError × DB) (Nat × DB × List Event) :=
  if b.orderIds.isEmpty then .error (.orderIdsRequired, db)
  else
    let matched := db.orders.filter (fun o => o.id ∈ b.orderIds)
    let db1 := { db with orders := db.orders.map (fun o =>
      if o.id ∈ b.orderIds then
        { o with
          status := b.status
          trackingNumber :=
            if strTruthy b.trackingNumber then b.trackingNumber else o.trackingNumber
          adminNotes :=
            if strTruthy b.notes then b.notes else o.adminNotes }
      else o) }
    let evs := matched.map (fun o =>
      Event.userNotified o.userId
        { orderId := o.id, status := b.status, trackingNumber := b.trackingNumber })
    .ok (matched.length, db1, evs)

end OrderManagementService

/-- Placeholder product used only to give total lookups a default. -/
def dummyProduct : Product :=
  { id := 0, name := "", price := 0, salePrice := none, isOnSale := false,
    images := [], stock := 0, isActive := false }

/-- The raw (unrounded) subtotal of a list of cart entries, as accumulated
by the validation loop. -/
def rawSubtotal (db : DB) (items : List CartItem) : ℚ :=
  (items.map (fun ci =>
    itemPrice ((findProduct db ci.productId).getD dummyProduct) * ci.quantity)).sum

/-- A cart entry passes the checkout validation: its product resolves, is
active, and has stock at least the requested quantity. -/
def entryOK (db : DB) (ci : CartItem) : Prop :=
  ∃ p, findProduct db ci.productId = some p ∧ p.isActive = true ∧ ci.quantity ≤ p.stock

/-- Run the user-facing status-update engine through a list of requested
statuses, threading the database; `none` as soon as one step fails. -/
def runChain (oid : Nat) : DB → List OrderStatus → Option DB
  | db, [] => some db
  | db, st :: rest =>
    match OrdersService.updateOrderStatus db oid { status := st, statusNote := none } "T" with
    | .ok (_, db1, _) => runChain oid db1 rest
    | .error _ => none

theorem ratFloor_eq_intFloor (q : ℚ) : q.floor = ⌊q⌋ := by
  rw [Rat.floor_def', Rat.floor_def]

theorem round2_eq_floor (q : ℚ) : round2 q = (⌊q * 100 + 1 / 2⌋ : ℚ) / 100 := by
  rw [round2, ratFloor_eq_intFloor]

theorem roundInt_eq_floor (q : ℚ) : roundInt q = ⌊q + 1 / 2⌋ := by
  rw [roundInt, ratFloor_eq_intFloor]

/-- `find?` with a key-based predicate commutes with mapping a
key-preserving function. -/
theorem find?_map_key {α : Type} (key : α → Nat) (g : α → α)
    (hg : ∀ a, key (g a) = key a) (k : Nat) :
    ∀ l : List α,
      (l.map g).find? (fun a => key a == k) = (l.find? (fun a => key a == k)).map g := by
  intro l
  induction l with
  | nil => rfl
  | cons a t ih =>
    by_cases h : key a = k
    · simp [List.find?, hg, h]
    · simp only [List.map_cons, List.find?]
      rw [show (key (g a) == k) = false by simp [hg, h],
        show (key a == k) = false by simp [h]]
      exact ih

theorem validateItems_ok_forall (db : DB) :
    ∀ (items : List CartItem) ois sub ups,
      validateItems db items = .ok (ois, sub, ups) → ∀ ci ∈ items, entryOK db ci := by
  intro items
  induction items with
  | nil => intro ois sub ups h ci hci; exact absurd hci (List.not_mem_nil ci)
  | cons a t ih =>
    intro ois sub ups h ci hci
    rw [validateItems] at h
    split at h
    · exact absurd h (by simp)
    · rename_i p hp
      split at h
      · exact absurd h (by simp)
      · split at h
        · exact absurd h (by simp)
        · split at h
          · exact absurd h (by simp)
          · rename_i hact hstock vres ois2 sub2 ups2 hv
            rcases List.mem_cons.mp hci with rfl | hmem
            · refine ⟨p, hp, ?_, ?_⟩
              · revert hact; cases p.isActive <;> simp
              · omega
            · exact ih ois2 sub2 ups2 hv ci hmem

theorem validateItems_ok_spec (db : DB) :
    ∀ (items : List CartItem) ois sub ups,
      validateItems db items = .ok (ois, sub, ups) →
      ois.length = items.length ∧
      sub = rawSubtotal db items ∧
      List.Forall₂ (fun (ci : CartItem) (oi : OrderItem) =>
        ∃ p, findProduct db ci.productId = some p ∧
          oi.productId = ci.productId ∧ oi.price = itemPrice p ∧
          oi.quantity = ci.quantity) items ois ∧
      List.Forall₂ (fun (ci : CartItem) (up : StockUpdate) =>
        ∃ p, findProduct db ci.productId = some p ∧
          up.productId = ci.productId ∧ up.newStock = p.stock - ci.quantity) items ups := by
  intro items
  induction items with
  | nil =>
    intro ois sub ups h
    rw [validateItems] at h
    simp only [Except.ok.injEq, Prod.mk.injEq] at h
    obtain ⟨h1, h2, h3⟩ := h
    subst h1; subst h2; subst h3
    exact ⟨rfl, by simp [rawSubtotal], List.Forall₂.nil, List.Forall₂.nil⟩
  | cons a t ih =>
    intro ois sub ups h
    rw [validateItems] at h
    split at h
    · exact absurd h (by simp)
    · rename_i p hp
      split at h
      · exact absurd h (by simp)
      · split at h
        · exact absurd h (by simp)
        · split at h
          · exact absurd h (by simp)
          · rename_i hact hstock vres ois2 sub2 ups2 hv
            simp only [Except.ok.injEq, Prod.mk.injEq] at h
            obtain ⟨h1, h2, h3⟩ := h
            subst h1; subst h2; subst h3
            obtain ⟨ihl, ihs, ihf, ihu⟩ := ih ois2 sub2 ups2 hv
            have hpid : p.id = a.productId := by
              have := List.find?_some hp
              simpa using this
            refine ⟨by simp [ihl], ?_, ?_, ?_⟩
            · simp [rawSubtotal, hp, ihs]
            · exact List.Forall₂.cons ⟨p, hp, hpid, rfl, rfl⟩ ihf
            · exact List.Forall₂.cons ⟨p, hp, hpid, rfl⟩ ihu

theorem validateItems_error_char (db : DB) :
    ∀ (items : List CartItem) e, validateItems db items = .error e →
      (∃ ci ∈ items, ¬ entryOK db ci) ∧
      (∀ nm, e = .productUnavailable nm →
        ∃ ci ∈ items, findProduct db ci.productId = none ∨
          ∃ p, findProduct db ci.productId = some p ∧ p.isActive = false) ∧
      (∀ nm a r, e = .insufficientStock nm a r →
        ∃ ci ∈ items, ∃ p, findProduct db ci.productId = some p ∧
          p.isActive = true ∧ p.stock < ci.quantity ∧
          a = p.stock ∧ r = ci.quantity ∧ nm = p.name) ∧
      e ≠ .cartEmpty := by
  intro items
  induction items with
  | nil => intro e h; rw [validateItems] at h; exact absurd h (by simp)
  | cons a t ih =>
    intro e h
    rw [validateItems] at h
    split at h
    · rename_i hp
      simp only [Except.error.injEq] at h
      subst h
      refine ⟨⟨a, List.mem_cons_self a t, ?_⟩, ?_, by simp, by simp⟩
      · rintro ⟨p, hfind, -, -⟩
        rw [hp] at hfind
        exact Option.noConfusion hfind
      · intro nm _
        exact ⟨a, List.mem_cons_self a t, Or.inl hp⟩
    · rename_i p hp
      split at h
      · rename_i hact
        simp only [Except.error.injEq] at h
        subst h
        have hfalse : p.isActive = false := by
          revert hact; cases p.isActive <;> simp
        refine ⟨⟨a, List.mem_cons_self a t, ?_⟩, ?_, by simp, by simp⟩
        · rintro ⟨q, hfind, hqact, -⟩
          rw [hp] at hfind
          cases hfind
          rw [hfalse] at hqact
          exact Bool.noConfusion hqact
        · intro nm _
          exact ⟨a, List.mem_cons_self a t, Or.inr ⟨p, hp, hfalse⟩⟩
      · rename_i hact
        have htrue : p.isActive = true := by
          revert hact; cases p.isActive <;> simp
        split at h
        · rename_i hstock
          simp only [Except.error.injEq] at h
          subst h
          refine ⟨⟨a, List.mem_cons_self a t, ?_⟩, by simp, ?_, by simp⟩
          · rintro ⟨q, hfind, -, hqstock⟩
            rw [hp] at hfind
            cases hfind
            omega
          · intro nm av rq he
            cases he
            exact ⟨a, List.mem_cons_self a t, p, hp, htrue, hstock, rfl, rfl, rfl⟩
        · split at h
          · rename_i e2 he2
            simp only [Except.error.injEq] at h
            subst h
            obtain ⟨⟨ci, hci, hbad⟩, hpu, his, hce⟩ := ih _ he2
            refine ⟨⟨ci, List.mem_cons_of_mem a hci, hbad⟩, ?_, ?_, hce⟩
            · intro nm hnm
              obtain ⟨ci2, hci2, hcase⟩ := hpu nm hnm
              exact ⟨ci2, List.mem_cons_of_mem a hci2, hcase⟩
            · intro nm av rq hnm
              obtain ⟨ci2, hci2, hcase⟩ := his nm av rq hnm
              exact ⟨ci2, List.mem_cons_of_mem a hci2, hcase⟩
          · exact absurd h (by simp)

theorem validateItems_error_of_bad (db : DB) (items : List CartItem)
    (hbad : ∃ ci ∈ items, ¬ entryOK db ci) :
    ∃ e, validateItems db items = .error e := by
  cases h : validateItems db items with
  | error e => exact ⟨e, rfl⟩
  | ok res =>
    obtain ⟨ci, hci, hnot⟩ := hbad
    exact absurd (validateItems_ok_forall db items res.1 res.2.1 res.2.2 (by rw [h]) ci hci) hnot

theorem findOrder_updateOrderIn (db : DB) (oid : Nat) (f : Order → Order)
    (hf : ∀ o, o.id = oid → (f o).id = o.id) :
    findOrder (updateOrderIn db oid f) oid
      = (findOrder db oid).map (fun o => if o.id == oid then f o else o) := by
  unfold findOrder updateOrderIn
  refine find?_map_key Order.id _ (fun o => ?_) oid db.orders
  by_cases h : o.id = oid
  · simp [h, hf o h]
  · simp [h]

theorem findProduct_setStock (db : DB) (pid : Nat) (st : Nat) (k : Nat) :
    findProduct (setStock db pid st) k
      = (findProduct db k).map (fun p => if p.id == pid then { p with stock := st } else p) := by
  unfold findProduct setStock
  exact find?_map_key Product.id _ (fun p => by by_cases h : p.id = pid <;> simp [h]) k db.products

theorem findCart_clearCart (db : DB) (uid : Nat) (k : Nat) :
    findCart (clearCart db uid) k
      = (findCart db k).map (fun c => if c.userId == uid then { c with items := [] } else c) := by
  unfold findCart clearCart
  exact find?_map_key Cart.userId _ (fun c => by by_cases h : c.userId = uid <;> simp [h]) k db.carts

theorem applyStockUpdates_orders (ups : List StockUpdate) :
    ∀ db, (applyStockUpdates db ups).orders = db.orders := by
  induction ups with
  | nil => intro db; rfl
  | cons u t ih => intro db; rw [applyStockUpdates, ih]; rfl

theorem applyStockUpdates_carts (ups : List StockUpdate) :
    ∀ db, (applyStockUpdates db ups).carts = db.carts := by
  induction ups with
  | nil => intro db; rfl
  | cons u t ih => intro db; rw [applyStockUpdates, ih]; rfl

theorem applyStockUpdates_findProduct_notin (ups : List StockUpdate) (pid : Nat) :
    ∀ db, pid ∉ ups.map StockUpdate.productId →
      findProduct (applyStockUpdates db ups) pid = findProduct db pid := by
  induction ups with
  | nil => intro db _; rfl
  | cons u t ih =>
    intro db hpid
    simp only [List.map_cons, List.mem_cons] at hpid
    push_neg at hpid
    rw [applyStockUpdates, ih _ hpid.2, findProduct_setStock]
    cases hf : findProduct db pid with
    | none => rfl
    | some p =>
      have : p.id = pid := by
        have := List.find?_some hf
        simpa using this
      have hne : p.id ≠ u.productId := by rw [this]; exact hpid.1
      simp [hne]

theorem applyStockUpdates_findProduct_nodup (ups : List StockUpdate) :
    ∀ db u, (ups.map StockUpdate.productId).Nodup → u ∈ ups →
      findProduct (applyStockUpdates db ups) u.productId
        = (findProduct db u.productId).map (fun p => { p with stock := u.newStock }) := by
  induction ups with
  | nil => intro db u _ hu; exact absurd hu (List.not_mem_nil u)
  | cons v t ih =>
    intro db u hnd hu
    simp only [List.map_cons, List.nodup_cons] at hnd
    rcases List.mem_cons.mp hu with rfl | hut
    · rw [applyStockUpdates, applyStockUpdates_findProduct_notin t _ _ hnd.1,
        findProduct_setStock]
      cases hf : findProduct db u.productId with
      | none => rfl
      | some p =>
        have : p.id = u.productId := by
          have := List.find?_some hf
          simpa using this
        simp [this]
    · have hne : v.productId ≠ u.productId := by
        intro he
        exact hnd.1 (he ▸ List.mem_map_of_mem StockUpdate.productId hut)
      rw [applyStockUpdates, ih _ u hnd.2 hut, findProduct_setStock]
      cases hf : findProduct db u.productId with
      | none => rfl
      | some p =>
        have : p.id = u.productId := by
          have := List.find?_some hf
          simpa using this
        simp [this, Ne.symm hne]

/-! ### Concrete example data used by witnesses and counterexamples -/

def pAlpha : Product :=
  { id := 1, name := "Alpha", price := 20, salePrice := none, isOnSale := false,
    images := ["a.jpg"], stock := 10, isActive := true }

def pBeta : Product :=
  { id := 2, name := "Beta", price := 10, salePrice := none, isOnSale := false,
    images := ["b.jpg"], stock := 5, isActive := true }

def exUser : User := { id := 5, firstName := "Jane", lastName := "Doe" }

def exCart : Cart :=
  { userId := 5
    items := [{ productId := 1, quantity := 2, size := some "M", color := none },
              { productId := 2, quantity := 1, size := none, color := some "red" }] }

def exDto : CreateOrderDto := { shippingAddress := none, orderNotes := none }

/-- A database ready for a successful two-item checkout (the §8 scenario:
20×2 + 10×1). -/
def baseDb : DB :=
  { products := [pAlpha, pBeta], carts := [exCart], orders := [], users := [exUser] }

def itemGamma : OrderItem :=
  { productId := 1, productName := "Alpha", productImage := "a.jpg",
    price := 20, quantity := 1, size := none, color := none }

/-- An order already delivered (terminal state). -/
def oDelivered : Order :=
  { id := 1, userId := 5, orderNumber := "ORD-1", items := [itemGamma],
    subtotal := 20, tax := 2, total := 22, status := .delivered,
    shippingAddress := demoAddress, orderNotes := "", trackingNumber := none,
    adminNotes := none }

def dbDelivered : DB :=
  { products := [], carts := [], orders := [oDelivered], users := [exUser] }

/-- An order in `pending`, ready for the full §4.2 chain. -/
def oPending : Order :=
  { id := 1, userId := 5, orderNumber := "ORD-2", items := [itemGamma],
    subtotal := 20, tax := 2, total := 22, status := .pending,
    shippingAddress := demoAddress, orderNotes := "", trackingNumber := none,
    adminNotes := none }

def dbPending : DB :=
  { products := [], carts := [], orders := [oPending], users := [exUser] }

/-! ### Claims -/

/-- Claim C5: the user-facing status update fails with `OrderNotFound` on a
missing order; fails with `InvalidTransition` carrying both the current and
requested status, leaving the state unchanged, when the requested status is
not in the allowed set; otherwise sets the status.  Consequently
pending→delivered always fails, the full chain
pending→confirmed→processing→shipped→delivered succeeds end-to-end, and no
transition leaves `delivered` or `cancelled`. -/
theorem C5_status_update_engine :
    (∀ db oid dto now, findOrder db oid = none →
      OrdersService.updateOrderStatus db oid dto now
        = .error (.orderNotFound, db)) ∧
    (∀ db oid dto now o, findOrder db oid = some o →
      dto.status ∉ OrdersService.getValidStatusTransitions o.status →
      OrdersService.updateOrderStatus db oid dto now
        = .error (.invalidTransition o.status dto.status, db)) ∧
    (∀ db oid dto now o, findOrder db oid = some o →
      dto.status ∈ OrdersService.getValidStatusTransitions o.status →
      ∃ o2 db2 evs, OrdersService.updateOrderStatus db oid dto now
          = .ok (o2, db2, evs) ∧ o2.status = dto.status) ∧
    (∀ c r, OrdersService.updateErrorMessage (.invalidTransition c r)
      = "Cannot change status from " ++ statusToString c ++ " to " ++ statusToString r) ∧
    OrderStatus.delivered ∉ OrdersService.getValidStatusTransitions .pending ∧
    OrdersService.getValidStatusTransitions .delivered = [] ∧
    OrdersService.getValidStatusTransitions .cancelled = [] ∧
    ((runChain 1 dbPending [.confirmed, .processing, .shipped, .delivered]).bind
      (fun db2 => (findOrder db2 1).map Order.status)) = some .delivered := by
  refine ⟨?_, ?_, ?_, fun c r => rfl, by decide, rfl, rfl, rfl⟩
  · intro db oid dto now hfind
    simp only [OrdersService.updateOrderStatus, hfind]
  · intro db oid dto now o hfind hnot
    simp only [OrdersService.updateOrderStatus, hfind]
    rw [if_neg hnot]
  · intro db oid dto now o hfind hmem
    simp only [OrdersService.updateOrderStatus, hfind]
    rw [if_pos hmem]
    exact ⟨_, _, _, rfl, rfl⟩

/-- Claim C5 witness: on the concrete delivered order, requesting
`pending` fails with `InvalidTransition` naming both statuses. -/
theorem C5_witness :
    findOrder dbDelivered 1 = some oDelivered ∧
    OrderStatus.pending ∉ OrdersService.getValidStatusTransitions oDelivered.status ∧
    OrdersService.updateOrderStatus dbDelivered 1
        { status := .pending, statusNote := none } "T"
      = .error (.invalidTransition .delivered .pending, dbDelivered) :=
  ⟨rfl, by decide,
    C5_status_update_engine.2.1 dbDelivered 1
      { status := .pending, statusNote := none } "T" oDelivered rfl (by decide)⟩

/-- Claim C1 counterexample: the admin-dashboard single update moves a
`delivered` order to `pending` even though `pending` is not in the allowed
set for `delivered` — the dashboard and bulk paths perform no transition
validation, so the claim as stated is false. -/
theorem C1_counterexample :
    OrderStatus.pending ∉ OrdersService.getValidStatusTransitions .delivered ∧
    (findOrder dbDelivered 1).map Order.status = some .delivered ∧
    ((OrderManagementService.updateOrderStatus dbDelivered 1 .pending none none).toOption.map
      (fun r => r.1.status)) = some .pending := by
  refine ⟨by decide, rfl, rfl⟩

/-- Claim C1 amended: only the user-facing `OrdersService.updateOrderStatus`
enforces the §4.2 transition table; the admin-dashboard single update
succeeds on every existing order regardless of its current status, and the
bulk variant applies the same unconditional update independently to every
order whose id is in the list. -/
theorem C1_amended_mutation_paths :
    (∀ db oid dto now o o2 db2 evs, findOrder db oid = some o →
      OrdersService.updateOrderStatus db oid dto now = .ok (o2, db2, evs) →
      dto.status ∈ OrdersService.getValidStatusTransitions o.status) ∧
    (∀ db oid st tn an o, findOrder db oid = some o →
      ∃ o2 db2 evs, OrderManagementService.updateOrderStatus db oid st tn an
          = .ok (o2, db2, evs) ∧ o2.status = st) ∧
    (∀ db b n db2 evs, OrderManagementService.bulkUpdateOrders db b = .ok (n, db2, evs) →
      ∀ o ∈ db.orders, o.id ∈ b.orderIds →
        ∃ o2 ∈ db2.orders, o2.id = o.id ∧ o2.status = b.status) := by
  refine ⟨?_, ?_, ?_⟩
  · intro db oid dto now o o2 db2 evs hfind hok
    simp only [OrdersService.updateOrderStatus, hfind] at hok
    by_cases hmem : dto.status ∈ OrdersService.getValidStatusTransitions o.status
    · exact hmem
    · rw [if_neg hmem] at hok
      exact absurd hok (by simp)
  · intro db oid st tn an o hfind
    simp only [OrderManagementService.updateOrderStatus, hfind]
    have hup := findOrder_updateOrderIn db oid
      (fun o => { o with
        status := st
        trackingNumber := if strTruthy tn then tn else o.trackingNumber
        adminNotes := if strTruthy an then an else o.adminNotes })
      (fun o _ => rfl)
    rw [hfind] at hup
    have hoid : o.id = oid := by
      have := List.find?_some hfind
      simpa using this
    rw [hup]
    simp [hoid]
  · intro db b n db2 evs hok o ho hid
    simp only [OrderManagementService.bulkUpdateOrders] at hok
    split at hok
    · exact absurd hok (by simp)
    · simp only [Except.ok.injEq, Prod.mk.injEq] at hok
      obtain ⟨-, hdb2, -⟩ := hok
      subst hdb2
      refine ⟨_, List.mem_map_of_mem _ ho, ?_⟩
      rw [if_pos hid]
      exact ⟨rfl, rfl⟩

/-- Claim C1 witness: concrete instantiation — on the delivered order the
user-facing engine rejects everything the table rejects, while the
admin-dashboard update and a singleton bulk update both force `pending`. -/
theorem C1_witness :
    (∃ o2 db2 evs, OrderManagementService.updateOrderStatus dbDelivered 1
        .pending none none = .ok (o2, db2, evs) ∧ o2.status = .pending) ∧
    (∃ o2 ∈ (OrderManagementService.bulkUpdateOrders dbDelivered
        { orderIds := [1], status := .pending, trackingNumber := none,
          notes := none }).toOption.elim [] (fun r => r.2.1.orders),
      o2.id = 1 ∧ o2.status = .pending) := by
  constructor
  · exact C1_amended_mutation_paths.2.1 dbDelivered 1 .pending none none oDelivered rfl
  · have := C1_amended_mutation_paths.2.2 dbDelivered
      { orderIds := [1], status := .pending, trackingNumber := none, notes := none }
      1 _ _ rfl oDelivered (by simp [dbDelivered]) (by simp [oDelivered])
    obtain ⟨o2, ho2, hid, hst⟩ := this
    exact ⟨o2, ho2, hid, hst⟩

/-- Claim C8: when the checkout request omits the shipping address, the
created order carries the fixed placeholder address. -/
theorem C8_placeholder_address :
    ∀ db uid dto onum oid o db2 evs, dto.shippingAddress = none →
      OrdersService.createOrderFromCart db uid dto onum oid = .ok (o, db2, evs) →
      o.shippingAddress = demoAddress := by
  intro db uid dto onum oid o db2 evs hnone hok
  simp only [OrdersService.createOrderFromCart] at hok
  split at hok
  · exact absurd hok (by simp)
  · split at hok
    · exact absurd hok (by simp)
    · split at hok
      · exact absurd hok (by simp)
      · simp only [Except.ok.injEq, Prod.mk.injEq] at hok
        obtain ⟨ho, -, -⟩ := hok
        subst ho
        simp [hnone]

/-- Claim C8 witness: a concrete checkout with no shipping address gets the
placeholder. -/
theorem C8_witness :
    ∃ o db2 evs,
      OrdersService.createOrderFromCart baseDb 5 exDto "ORD-77" 7 = .ok (o, db2, evs) ∧
      o.shippingAddress = demoAddress := by
  cases hok : OrdersService.createOrderFromCart baseDb 5 exDto "ORD-77" 7 with
  | error e =>
    exact absurd hok (by simp [OrdersService.createOrderFromCart, baseDb, exCart, findCart,
      validateItems, findProduct, pAlpha, pBeta])
  | ok r =>
    obtain ⟨o, db2, evs⟩ := r
    exact ⟨o, db2, evs, rfl,
      C8_placeholder_address baseDb 5 exDto "ORD-77" 7 o db2 evs rfl hok⟩

theorem forall₂_mem_right {α β : Type} {r : α → β → Prop} :
    ∀ {l1 : List α} {l2 : List β}, List.Forall₂ r l1 l2 →
      ∀ b ∈ l2, ∃ a ∈ l1, r a b := by
  intro l1 l2 h
  induction h with
  | nil => intro b hb; exact absurd hb (List.not_mem_nil b)
  | cons hr _ ih =>
    intro b hb
    rcases List.mem_cons.mp hb with rfl | hb2
    · exact ⟨_, List.mem_cons_self _ _, hr⟩
    · obtain ⟨a, ha, hab⟩ := ih b hb2
      exact ⟨a, List.mem_cons_of_mem _ ha, hab⟩

/-- Full inversion of a successful checkout: recover the cart, the validated
items, and the exact shape of the created order, the final state, and the
event trace. -/
theorem createOrder_ok_inversion
    (db : DB) (uid : Nat) (dto : CreateOrderDto) (onum : String) (oid : Nat)
    (o : Order) (db2 : DB) (evs : List Event)
    (hok : OrdersService.createOrderFromCart db uid dto onum oid = .ok (o, db2, evs)) :
    ∃ cart ois sub ups, findCart db uid = some cart ∧ cart.items ≠ [] ∧
      validateItems db cart.items = .ok (ois, sub, ups) ∧
      o = { id := oid, userId := uid, orderNumber := onum, items := ois,
            subtotal := round2 sub, tax := round2 (sub * (1 / 10)),
            total := round2 (sub + sub * (1 / 10)), status := .pending,
            shippingAddress := dto.shippingAddress.getD demoAddress,
            orderNotes := strOrDefault dto.orderNotes "Order placed via demo cart",
            trackingNumber := none, adminNotes := none } ∧
      db2 = clearCart (applyStockUpdates (saveOrder db o) ups) uid ∧
      evs = (match findUser db uid with
             | some u =>
               [Event.orderSaved oid,
                Event.adminNotified
                  { orderId := oid, userId := uid,
                    customerName := u.firstName ++ " " ++ u.lastName,
                    totalAmount := roundInt (sub + sub * (1 / 10)),
                    itemCount := ois.length, status := .pending }]
             | none => [Event.orderSaved oid])
        ++ ups.map (fun su => Event.stockSet su.productId su.newStock)
        ++ [Event.cartCleared uid] := by
  simp only [OrdersService.createOrderFromCart] at hok
  split at hok
  · exact absurd hok (by simp)
  · rename_i cart hcart
    split at hok
    · exact absurd hok (by simp)
    · rename_i hne
      split at hok
      · exact absurd hok (by simp)
      · rename_i vres ois sub ups hv
        refine ⟨cart, ois, sub, ups, hcart, fun hnil => hne (by simp [hnil]), hv, ?_⟩
        cases hu : findUser db uid with
        | some u =>
          simp only [Except.ok.injEq, Prod.mk.injEq] at hok
          obtain ⟨ho, hdb2, hevs⟩ := hok
          subst ho
          exact ⟨rfl, hdb2.symm, by rw [← hevs]; simp [hu]⟩
        | none =>
          simp only [Except.ok.injEq, Prod.mk.injEq] at hok
          obtain ⟨ho, hdb2, hevs⟩ := hok
          subst ho
          exact ⟨rfl, hdb2.symm, by rw [← hevs]; simp [hu]⟩

/-- Claim C9: the sale price is frozen into the order item only when the
product is flagged on-sale and the sale price is present and nonzero; a
flagged product with an absent or zero sale price freezes the base price,
and every item of a checkout-created order carries `itemPrice` of its
product. -/
theorem C9_sale_price_truthiness :
    (∀ p : Product, p.isOnSale = true → (p.salePrice = none ∨ p.salePrice = some 0) →
      itemPrice p = p.price) ∧
    (∀ p : Product, itemPrice p ≠ p.price →
      ∃ sp, p.salePrice = some sp ∧ sp ≠ 0 ∧ p.isOnSale = true ∧ itemPrice p = sp) ∧
    (∀ db uid dto onum oid o db2 evs,
      OrdersService.createOrderFromCart db uid dto onum oid = .ok (o, db2, evs) →
      ∀ oi ∈ o.items, ∃ p, findProduct db oi.productId = some p ∧ oi.price = itemPrice p) := by
  refine ⟨?_, ?_, ?_⟩
  · intro p hflag hsp
    rcases hsp with h | h <;> simp [itemPrice, h]
  · intro p hne
    cases hsp : p.salePrice with
    | none => exact absurd (by simp [itemPrice, hsp]) hne
    | some sp =>
      by_cases hz : sp = 0
      · subst hz
        exact absurd (by simp [itemPrice, hsp]) hne
      · cases hflag : p.isOnSale with
        | false => exact absurd (by simp [itemPrice, hsp, hflag]) hne
        | true =>
          refine ⟨sp, rfl, hz, rfl, ?_⟩
          simp [itemPrice, hsp, hflag, hz]
  · intro db uid dto onum oid o db2 evs hok oi hoi
    obtain ⟨cart, ois, sub, ups, hcart, hne, hv, ho, -, -⟩ :=
      createOrder_ok_inversion db uid dto onum oid o db2 evs hok
    obtain ⟨-, -, hf, -⟩ := validateItems_ok_spec db cart.items ois sub ups hv
    have hoi2 : oi ∈ ois := by rw [ho] at hoi; exact hoi
    obtain ⟨ci, hci, p, hp, hpid, hprice, -⟩ := forall₂_mem_right hf oi hoi2
    exact ⟨p, by rw [hpid]; exact hp, hprice⟩

/-- A product flagged on-sale whose sale price is zero. -/
def pGamma : Product :=
  { id := 3, name := "Gamma", price := 7, salePrice := some 0, isOnSale := true,
    images := [], stock := 1, isActive := true }

/-- Claim C9 witness: concrete instantiation on a flagged product with sale
price zero. -/
theorem C9_witness : pGamma.isOnSale = true ∧ itemPrice pGamma = 7 := by
  refine ⟨rfl, ?_⟩
  have := C9_sale_price_truthiness.1 pGamma rfl (Or.inr rfl)
  rw [this]
  rfl

def dbEmptyCart : DB :=
  { products := [], carts := [{ userId := 5, items := [] }], orders := [], users := [] }

/-- Claim C2: every checkout precondition failure — missing/empty cart,
missing or inactive product, or quantity exceeding stock — aborts with the
corresponding error and without any mutation: the returned state is exactly
the input state (no order written, no stock changed, cart untouched). -/
theorem C2_checkout_failure_no_mutation :
    (∀ db uid dto onum oid e db2,
      OrdersService.createOrderFromCart db uid dto onum oid = .error (e, db2) →
      db2 = db) ∧
    (∀ db uid dto onum oid, (findCart db uid = none ∨
        (∃ cart, findCart db uid = some cart ∧ cart.items = [])) →
      OrdersService.createOrderFromCart db uid dto onum oid = .error (.cartEmpty, db)) ∧
    (∀ db uid dto onum oid o db2 evs cart,
      OrdersService.createOrderFromCart db uid dto onum oid = .ok (o, db2, evs) →
      findCart db uid = some cart → ∀ ci ∈ cart.items, entryOK db ci) ∧
    (∀ db uid dto onum oid nm db2,
      OrdersService.createOrderFromCart db uid dto onum oid
        = .error (.productUnavailable nm, db2) →
      ∃ cart, findCart db uid = some cart ∧ ∃ ci ∈ cart.items,
        findProduct db ci.productId = none ∨
        ∃ p, findProduct db ci.productId = some p ∧ p.isActive = false) ∧
    (∀ db uid dto onum oid nm av rq db2,
      OrdersService.createOrderFromCart db uid dto onum oid
        = .error (.insufficientStock nm av rq, db2) →
      ∃ cart, findCart db uid = some cart ∧ ∃ ci ∈ cart.items, ∃ p,
        findProduct db ci.productId = some p ∧ p.isActive = true ∧
        p.stock < ci.quantity ∧ av = p.stock ∧ rq = ci.quantity) ∧
    (∀ db uid dto onum oid cart, findCart db uid = some cart →
      (∃ ci ∈ cart.items, ¬ entryOK db ci) →
      ∃ e, OrdersService.createOrderFromCart db uid dto onum oid = .error (e, db)) := by
  refine ⟨?_, ?_, ?_, ?_, ?_, ?_⟩
  · intro db uid dto onum oid e db2 h
    simp only [OrdersService.createOrderFromCart] at h
    split at h
    · simp only [Except.error.injEq, Prod.mk.injEq] at h
      exact h.2.symm
    · split at h
      · simp only [Except.error.injEq, Prod.mk.injEq] at h
        exact h.2.symm
      · split at h
        · simp only [Except.error.injEq, Prod.mk.injEq] at h
          exact h.2.symm
        · exact absurd h (by simp)
  · intro db uid dto onum oid hcase
    rcases hcase with hnone | ⟨cart, hsome, hitems⟩
    · simp [OrdersService.createOrderFromCart, hnone]
    · simp [OrdersService.createOrderFromCart, hsome, hitems]
  · intro db uid dto onum oid o db2 evs cart hok hcart ci hci
    obtain ⟨cart0, ois, sub, ups, hcart0, -, hv, -, -, -⟩ :=
      createOrder_ok_inversion db uid dto onum oid o db2 evs hok
    rw [hcart] at hcart0
    cases hcart0
    exact validateItems_ok_forall db cart.items ois sub ups hv ci hci
  · intro db uid dto onum oid nm db2 h
    simp only [OrdersService.createOrderFromCart] at h
    split at h
    · simp at h
    · rename_i cart hcart
      split at h
      · simp at h
      · split at h
        · rename_i e0 hverr
          simp only [Except.error.injEq, Prod.mk.injEq] at h
          obtain ⟨he, -⟩ := h
          subst he
          obtain ⟨-, hpu, -, -⟩ := validateItems_error_char db cart.items _ hverr
          exact ⟨cart, hcart, hpu nm rfl⟩
        · exact absurd h (by simp)
  · intro db uid dto onum oid nm av rq db2 h
    simp only [OrdersService.createOrderFromCart] at h
    split at h
    · simp at h
    · rename_i cart hcart
      split at h
      · simp at h
      · split at h
        · rename_i e0 hverr
          simp only [Except.error.injEq, Prod.mk.injEq] at h
          obtain ⟨he, -⟩ := h
          subst he
          obtain ⟨-, -, his, -⟩ := validateItems_error_char db cart.items _ hverr
          obtain ⟨ci, hci, p, hp, hact, hstock, hav, hrq, -⟩ := his nm av rq rfl
          exact ⟨cart, hcart, ci, hci, p, hp, hact, hstock, hav, hrq⟩
        · exact absurd h (by simp)
  · intro db uid dto onum oid cart hcart hbad
    obtain ⟨e, hverr⟩ := validateItems_error_of_bad db cart.items hbad
    refine ⟨e, ?_⟩
    have hne : cart.items.isEmpty = false := by
      obtain ⟨ci, hci, -⟩ := hbad
      cases hitems : cart.items with
      | nil => rw [hitems] at hci; exact absurd hci (List.not_mem_nil ci)
      | cons a t => rfl
    simp [OrdersService.createOrderFromCart, hcart, hne, hverr]

/-- Claim C2 witness: checkout against a present-but-empty cart fails with
`CartEmpty` and returns the state unchanged. -/
theorem C2_witness :
    OrdersService.createOrderFromCart dbEmptyCart 5 exDto "ORD-9" 9
      = .error (.cartEmpty, dbEmptyCart) :=
  C2_checkout_failure_no_mutation.2.1 dbEmptyCart 5 exDto "ORD-9" 9
    (Or.inr ⟨{ userId := 5, items := [] }, rfl, rfl⟩)

theorem forall₂_mem_left {α β : Type} {r : α → β → Prop} :
    ∀ {l1 : List α} {l2 : List β}, List.Forall₂ r l1 l2 →
      ∀ a ∈ l1, ∃ b ∈ l2, r a b := by
  intro l1 l2 h
  induction h with
  | nil => intro a ha; exact absurd ha (List.not_mem_nil a)
  | cons hr _ ih =>
    intro a ha
    rcases List.mem_cons.mp ha with rfl | ha2
    · exact ⟨_, List.mem_cons_self _ _, hr⟩
    · obtain ⟨b, hb, hab⟩ := ih a ha2
      exact ⟨b, List.mem_cons_of_mem _ hb, hab⟩

theorem forall₂_map_eq {α β γ : Type} {r : α → β → Prop}
    (f : α → γ) (g : β → γ) (hfg : ∀ a b, r a b → g b = f a) :
    ∀ {l1 : List α} {l2 : List β}, List.Forall₂ r l1 l2 → l2.map g = l1.map f := by
  intro l1 l2 h
  induction h with
  | nil => rfl
  | cons hr _ ih => simp [ih, hfg _ _ hr]

theorem validateItems_ok_of_all (db : DB) :
    ∀ items : List CartItem, (∀ ci ∈ items, entryOK db ci) →
      ∃ ois sub ups, validateItems db items = .ok (ois, sub, ups) := by
  intro items
  induction items with
  | nil => intro _; exact ⟨[], 0, [], rfl⟩
  | cons a t ih =>
    intro hall
    obtain ⟨p, hp, hact, hstock⟩ := hall a (List.mem_cons_self a t)
    obtain ⟨ois, sub, ups, hv⟩ := ih (fun ci hci => hall ci (List.mem_cons_of_mem a hci))
    refine ⟨{ productId := p.id, productName := p.name,
              productImage := p.images.headD "", price := itemPrice p,
              quantity := a.quantity, size := a.size,
              color := a.color } :: ois,
      itemPrice p * a.quantity + sub,
      { productId := p.id, newStock := p.stock - a.quantity } :: ups, ?_⟩
    simp only [validateItems, hp, hv]
    rw [if_neg (by simp [hact]), if_neg (by omega)]

/-- The order returned by a successful checkout, if any. -/
def checkoutOrder? (db : DB) (uid : Nat) (dto : CreateOrderDto)
    (onum : String) (oid : Nat) : Option Order :=
  match OrdersService.createOrderFromCart db uid dto onum oid with
  | .ok (o, _, _) => some o
  | .error _ => none

/-- The database state after a checkout call (error or success). -/
def checkoutDbAfter (db : DB) (uid : Nat) (dto : CreateOrderDto)
    (onum : String) (oid : Nat) : DB :=
  match OrdersService.createOrderFromCart db uid dto onum oid with
  | .ok (_, db2, _) => db2
  | .error (_, db2) => db2

/-- The event trace of a checkout call (empty on failure). -/
def checkoutEvents (db : DB) (uid : Nat) (dto : CreateOrderDto)
    (onum : String) (oid : Nat) : List Event :=
  match OrdersService.createOrderFromCart db uid dto onum oid with
  | .ok (_, _, evs) => evs
  | .error _ => []

/-- The event trace of a user-facing status update (empty on failure). -/
def updateEvents (db : DB) (oid : Nat) (dto : OrdersService.UpdateOrderStatusDto)
    (now : String) : List Event :=
  match OrdersService.updateOrderStatus db oid dto now with
  | .ok (_, _, evs) => evs
  | .error _ => []

theorem round2_int_cents (k : ℤ) : round2 ((k : ℚ) / 100) = (k : ℚ) / 100 := by
  rw [round2_eq_floor]
  have h1 : (k : ℚ) / 100 * 100 + 1 / 2 = (k : ℚ) + 1 / 2 := by ring
  rw [h1, Int.floor_int_add]
  norm_num

theorem round2_add_int_cents (k : ℤ) (x : ℚ) :
    round2 ((k : ℚ) / 100 + x) = (k : ℚ) / 100 + round2 x := by
  rw [round2_eq_floor, round2_eq_floor]
  have h1 : ((k : ℚ) / 100 + x) * 100 + 1 / 2 = (k : ℚ) + (x * 100 + 1 / 2) := by ring
  rw [h1, Int.floor_int_add]
  push_cast
  ring

/-- A product whose price has three decimal places. -/
def pFrac : Product :=
  { id := 4, name := "Delta", price := 333 / 1000, salePrice := none,
    isOnSale := false, images := [], stock := 2, isActive := true }

def dbFrac : DB :=
  { products := [pFrac]
    carts := [{ userId := 6,
                items := [{ productId := 4, quantity := 1, size := none, color := none }] }]
    orders := []
    users := [] }

/-- Claim C4 counterexample: with a single item priced 0.333, the stored
figures are subtotal 0.33, tax 0.03, total 0.37 — and 0.37 ≠ 0.33 + 0.03,
so the stored identity total = subtotal + tax fails. -/
theorem C4_counterexample :
    (checkoutOrder? dbFrac 6 exDto "ORD-F" 11).map
        (fun o => (o.subtotal, o.tax, o.total))
      = some (33 / 100, 3 / 100, 37 / 100) ∧
    (37 : ℚ) / 100 ≠ 33 / 100 + 3 / 100 := by
  constructor
  · simp [checkoutOrder?, OrdersService.createOrderFromCart, dbFrac, pFrac, exDto,
      findCart, findUser, validateItems, findProduct, itemPrice]
    norm_num [round2_eq_floor]
  · norm_num

/-- Claim C4 amended: each stored monetary figure is the 2-decimal rounding
of its raw value, with the total rounded from the raw sum subtotal + tax
(not recomputed from the stored figures); whenever the raw subtotal is an
integer number of cents — in particular whenever every price has at most
two decimals — the stored values do satisfy total = subtotal + tax. -/
theorem C4_amended_rounded_totals :
    ∀ db uid dto onum oid o db2 evs cart,
      OrdersService.createOrderFromCart db uid dto onum oid = .ok (o, db2, evs) →
      findCart db uid = some cart →
      o.subtotal = round2 (rawSubtotal db cart.items) ∧
      o.tax = round2 (rawSubtotal db cart.items * (1 / 10)) ∧
      o.total = round2 (rawSubtotal db cart.items + rawSubtotal db cart.items * (1 / 10)) ∧
      (∀ k : ℤ, rawSubtotal db cart.items = (k : ℚ) / 100 →
        o.total = o.subtotal + o.tax) := by
  intro db uid dto onum oid o db2 evs cart hok hcart
  obtain ⟨cart0, ois, sub, ups, hcart0, -, hv, ho, -, -⟩ :=
    createOrder_ok_inversion db uid dto onum oid o db2 evs hok
  rw [hcart] at hcart0
  cases hcart0
  obtain ⟨-, hsub, -, -⟩ := validateItems_ok_spec db cart.items ois sub ups hv
  subst hsub
  refine ⟨by rw [ho], by rw [ho], by rw [ho], ?_⟩
  intro k hk
  rw [ho]
  simp only [hk]
  rw [round2_add_int_cents, round2_int_cents]

/-- Claim C4 witness: the §8 scenario cart (20×2 + 10×1, an integer number
of cents) satisfies total = subtotal + tax on the stored values. -/
theorem C4_witness :
    ∃ o db2 evs,
      OrdersService.createOrderFromCart baseDb 5 exDto "ORD-77" 7 = .ok (o, db2, evs) ∧
      o.total = o.subtotal + o.tax := by
  cases hok : OrdersService.createOrderFromCart baseDb 5 exDto "ORD-77" 7 with
  | error e =>
    exact absurd hok (by simp [OrdersService.createOrderFromCart, baseDb, exCart, findCart,
      validateItems, findProduct, pAlpha, pBeta])
  | ok r =>
    obtain ⟨o, db2, evs⟩ := r
    refine ⟨o, db2, evs, rfl, ?_⟩
    have h := C4_amended_rounded_totals baseDb 5 exDto "ORD-77" 7 o db2 evs exCart hok rfl
    refine h.2.2.2 5000 ?_
    simp [rawSubtotal, exCart, baseDb, findProduct, pAlpha, pBeta, itemPrice, List.find?]
    norm_num

theorem findOrder_updateOrderIn_const (db : DB) (oid : Nat) (o2 : Order)
    (h2 : o2.id = oid) :
    findOrder (updateOrderIn db oid (fun _ => o2)) oid
      = (findOrder db oid).map (fun _ => o2) := by
  rw [findOrder_updateOrderIn db oid (fun _ => o2) (fun x hx => by rw [h2, hx])]
  cases hf : findOrder db oid with
  | none => rfl
  | some o =>
    have : o.id = oid := by
      have := List.find?_some hf
      simpa using this
    simp [this]

theorem findOrder_set_const (db : DB) (oid : Nat) (o o2 : Order)
    (hfind : findOrder db oid = some o) (h2 : o2.id = oid) :
    findOrder (updateOrderIn db oid (fun _ => o2)) oid = some o2 := by
  rw [findOrder_updateOrderIn_const db oid o2 h2, hfind]
  rfl

def ciTen : CartItem := { productId := 10, quantity := 1, size := none, color := none }

def pTen : Product :=
  { id := 10, name := "Ten", price := 52 / 5, salePrice := none,
    isOnSale := false, images := [], stock := 3, isActive := true }

def dbTen : DB :=
  { products := [pTen]
    carts := [{ userId := 8, items := [ciTen] }]
    orders := []
    users := [{ id := 8, firstName := "Al", lastName := "Bo" }] }

/-- Claim C10: the admin new-order notification carries
`Math.round(total)` — the raw order total rounded to the nearest whole
number — while the order stores the 2-decimal rounding; on a concrete
checkout with total 11.44 the notification says 11. -/
theorem C10_notification_whole_rounding :
    (∀ db uid dto onum oid o db2 evs cart u,
      OrdersService.createOrderFromCart db uid dto onum oid = .ok (o, db2, evs) →
      findCart db uid = some cart → findUser db uid = some u →
      Event.adminNotified
        { orderId := oid, userId := uid,
          customerName := u.firstName ++ " " ++ u.lastName,
          totalAmount := roundInt (rawSubtotal db cart.items
            + rawSubtotal db cart.items * (1 / 10)),
          itemCount := o.items.length, status := .pending } ∈ evs ∧
      o.total = round2 (rawSubtotal db cart.items
        + rawSubtotal db cart.items * (1 / 10))) ∧
    ((checkoutOrder? dbTen 8 exDto "ORD-T" 12).map Order.total = some (1144 / 100) ∧
     Event.adminNotified
         { orderId := 12, userId := 8, customerName := "Al Bo",
           totalAmount := 11, itemCount := 1, status := .pending }
       ∈ checkoutEvents dbTen 8 exDto "ORD-T" 12 ∧
     (11 : ℚ) ≠ 1144 / 100) := by
  constructor
  · intro db uid dto onum oid o db2 evs cart u hok hcart hu
    obtain ⟨cart0, ois, sub, ups, hcart0, -, hv, ho, -, hevs⟩ :=
      createOrder_ok_inversion db uid dto onum oid o db2 evs hok
    rw [hcart] at hcart0
    cases hcart0
    obtain ⟨-, hsub, -, -⟩ := validateItems_ok_spec db cart.items ois sub ups hv
    subst hsub
    rw [hu] at hevs
    subst ho
    constructor
    · rw [hevs]
      simp
    · rfl
  · refine ⟨?_, ?_, by norm_num⟩
    · simp [checkoutOrder?, OrdersService.createOrderFromCart, dbTen, pTen, ciTen, exDto,
        findCart, findUser, validateItems, findProduct, itemPrice]
      norm_num [round2_eq_floor]
    · simp [checkoutEvents, OrdersService.createOrderFromCart, dbTen, pTen, ciTen, exDto,
        findCart, findUser, validateItems, findProduct, itemPrice]
      norm_num [roundInt_eq_floor]

/-- Claim C10 witness: concrete application — the checkout on `dbTen` emits
an admin notification whose amount is the whole-number rounding of the raw
total. -/
theorem C10_witness :
    ∃ o db2 evs,
      OrdersService.createOrderFromCart dbTen 8 exDto "ORD-T" 12 = .ok (o, db2, evs) ∧
      Event.adminNotified
        { orderId := 12, userId := 8, customerName := "Al Bo",
          totalAmount := roundInt (rawSubtotal dbTen [ciTen]
            + rawSubtotal dbTen [ciTen] * (1 / 10)),
          itemCount := o.items.length, status := .pending } ∈ evs := by
  cases hok : OrdersService.createOrderFromCart dbTen 8 exDto "ORD-T" 12 with
  | error e =>
    exact absurd hok (by simp [OrdersService.createOrderFromCart, dbTen, pTen, ciTen,
      findCart, validateItems, findProduct])
  | ok r =>
    obtain ⟨o, db2, evs⟩ := r
    refine ⟨o, db2, evs, rfl, ?_⟩
    exact (C10_notification_whole_rounding.1 dbTen 8 exDto "ORD-T" 12 o db2 evs
      { userId := 8, items := [ciTen] }
      { id := 8, firstName := "Al", lastName := "Bo" } hok rfl rfl).1

/-- An order in `shipped` that already carries a tracking number. -/
def oShipped : Order :=
  { id := 2, userId := 5, orderNumber := "ORD-3", items := [itemGamma],
    subtotal := 20, tax := 2, total := 22, status := .shipped,
    shippingAddress := demoAddress, orderNotes := "start",
    trackingNumber := some "TRK123", adminNotes := none }

def dbShipped : DB :=
  { products := [], carts := [], orders := [oShipped], users := [exUser] }

/-- Claim C7 counterexample: a successful update of an order whose tracking
number is set emits a user notification whose tracking field is `none` —
the user-facing path never passes the tracking number. -/
theorem C7_counterexample :
    oShipped.trackingNumber = some "TRK123" ∧
    updateEvents dbShipped 2
        { status := .delivered, statusNote := some "left at gate" } "2025-01-02"
      = [Event.orderUpdated 2,
         Event.userNotified 5
           { orderId := 2, status := .delivered, trackingNumber := none }] :=
  ⟨rfl, rfl⟩

/-- Claim C7 amended: on a successful user-facing status update with a
nonempty note, a timestamped line recording the new status and the note is
appended to the existing notes (never overwritten), the updated order is
persisted, and afterwards the owning user is notified of the new status —
but the notification never carries the tracking number (its tracking field
is unset even when the order has one). -/
theorem C7_amended_notes_and_notification :
    ∀ db oid dto now o note, findOrder db oid = some o →
      dto.status ∈ OrdersService.getValidStatusTransitions o.status →
      dto.statusNote = some note → note ≠ "" →
      ∃ o2 db2, OrdersService.updateOrderStatus db oid dto now
          = .ok (o2, db2,
              [Event.orderUpdated oid,
               Event.userNotified o.userId
                 { orderId := oid, status := dto.status, trackingNumber := none }]) ∧
        o2.status = dto.status ∧
        o2.orderNotes = o.orderNotes ++ "\n[" ++ now ++ "] Status changed to "
          ++ statusToString dto.status ++ ": " ++ note ∧
        o2.trackingNumber = o.trackingNumber ∧
        findOrder db2 oid = some o2 := by
  intro db oid dto now o note hfind hmem hnote hne
  simp only [OrdersService.updateOrderStatus, hfind]
  rw [if_pos hmem]
  have htruthy : strTruthy dto.statusNote = true := by
    rw [hnote]; simpa [strTruthy] using hne
  rw [htruthy]
  simp only [if_true, hnote, Option.getD_some]
  refine ⟨_, _, rfl, rfl, rfl, rfl, ?_⟩
  have hoid : o.id = oid := by
    have := List.find?_some hfind
    simpa using this
  exact findOrder_set_const db oid o _ hfind hoid

/-- Claim C7 witness: concrete application of the amended statement to the
shipped order with a tracking number and a nonempty note. -/
theorem C7_witness :
    ∃ o2 db2, OrdersService.updateOrderStatus dbShipped 2
        { status := .delivered, statusNote := some "left at gate" } "2025-01-02"
        = .ok (o2, db2,
            [Event.orderUpdated 2,
             Event.userNotified 5
               { orderId := 2, status := .delivered, trackingNumber := none }]) ∧
      o2.status = .delivered ∧
      o2.orderNotes = "start" ++ "\n[" ++ "2025-01-02" ++ "] Status changed to "
        ++ statusToString .delivered ++ ": " ++ "left at gate" ∧
      o2.trackingNumber = some "TRK123" ∧
      findOrder db2 2 = some o2 :=
  C7_amended_notes_and_notification dbShipped 2
    { status := .delivered, statusNote := some "left at gate" } "2025-01-02"
    oShipped "left at gate" rfl (by decide) rfl (by decide)

def Event.isStockSet : Event → Bool
  | .stockSet _ _ => true
  | _ => false

def Event.isAdminNotified : Event → Bool
  | .adminNotified _ => true
  | _ => false

/-- Modelled from the spec's effect ordering (§4.1 / claim C6): in the
trace, every stock decrement precedes every admin notification (the
notification is claimed to be emitted only after stock and cart
mutations). -/
def specAdminNotifyLast (tr : List Event) : Prop :=
  ∀ i j, (hi : i < tr.length) → (hj : j < tr.length) →
    (tr.get ⟨i, hi⟩).isStockSet = true →
    (tr.get ⟨j, hj⟩).isAdminNotified = true → i < j

/-- Claim C6 counterexample: on the concrete two-item checkout the emitted
trace places the admin notification immediately after the order save and
before both stock writes and the cart clear — not after them as claimed. -/
theorem C6_counterexample :
    checkoutEvents baseDb 5 exDto "ORD-77" 7
      = [Event.orderSaved 7,
         Event.adminNotified
           { orderId := 7, userId := 5, customerName := "Jane Doe",
             totalAmount := 55, itemCount := 2, status := .pending },
         Event.stockSet 1 8, Event.stockSet 2 4, Event.cartCleared 5] ∧
    ¬ specAdminNotifyLast
        [Event.orderSaved 7,
         Event.adminNotified
           { orderId := 7, userId := 5, customerName := "Jane Doe",
             totalAmount := 55, itemCount := 2, status := .pending },
         Event.stockSet 1 8, Event.stockSet 2 4, Event.cartCleared 5] := by
  constructor
  · simp [checkoutEvents, OrdersService.createOrderFromCart, baseDb, exCart, exDto, exUser,
      findCart, findUser, validateItems, findProduct, pAlpha, pBeta, itemPrice,
      applyStockUpdates, setStock, clearCart, saveOrder]
    norm_num [roundInt_eq_floor]
  · intro h
    have h21 := h 2 1 (by norm_num) (by norm_num) rfl rfl
    omega

/-- Claim C6 amended: on a successful checkout the effects occur in this
order — the order is persisted first, then (when the user record resolves)
the admin notification carrying order id, customer name, whole-rounded
total and item count is emitted, then each validated product's stock is
written, then the cart is cleared, and finally the created order is
returned. -/
theorem C6_amended_effect_order :
    ∀ db uid dto onum oid o db2 evs cart,
      OrdersService.createOrderFromCart db uid dto onum oid = .ok (o, db2, evs) →
      findCart db uid = some cart →
      ∃ ups : List StockUpdate,
        validateItems db cart.items = .ok (o.items, rawSubtotal db cart.items, ups) ∧
        db2 = clearCart (applyStockUpdates (saveOrder db o) ups) uid ∧
        evs = (match findUser db uid with
               | some u =>
                 [Event.orderSaved oid,
                  Event.adminNotified
                    { orderId := oid, userId := uid,
                      customerName := u.firstName ++ " " ++ u.lastName,
                      totalAmount := roundInt (rawSubtotal db cart.items
                        + rawSubtotal db cart.items * (1 / 10)),
                      itemCount := o.items.length, status := .pending }]
               | none => [Event.orderSaved oid])
          ++ ups.map (fun su => Event.stockSet su.productId su.newStock)
          ++ [Event.cartCleared uid] := by
  intro db uid dto onum oid o db2 evs cart hok hcart
  obtain ⟨cart0, ois, sub, ups, hcart0, -, hv, ho, hdb2, hevs⟩ :=
    createOrder_ok_inversion db uid dto onum oid o db2 evs hok
  rw [hcart] at hcart0
  cases hcart0
  obtain ⟨-, hsub, -, -⟩ := validateItems_ok_spec db cart.items ois sub ups hv
  subst hsub
  subst ho
  exact ⟨ups, hv, hdb2, hevs⟩

/-- Claim C6 witness: the amended ordering instantiated on the concrete
two-item checkout. -/
theorem C6_witness :
    ∃ o db2 evs ups,
      OrdersService.createOrderFromCart baseDb 5 exDto "ORD-77" 7 = .ok (o, db2, evs) ∧
      db2 = clearCart (applyStockUpdates (saveOrder baseDb o) ups) 5 ∧
      evs = [Event.orderSaved 7,
             Event.adminNotified
               { orderId := 7, userId := 5,
                 customerName := exUser.firstName ++ " " ++ exUser.lastName,
                 totalAmount := roundInt (rawSubtotal baseDb exCart.items
                   + rawSubtotal baseDb exCart.items * (1 / 10)),
                 itemCount := o.items.length, status := .pending }]
        ++ ups.map (fun su => Event.stockSet su.productId su.newStock)
        ++ [Event.cartCleared 5] := by
  cases hok : OrdersService.createOrderFromCart baseDb 5 exDto "ORD-77" 7 with
  | error e =>
    exact absurd hok (by simp [OrdersService.createOrderFromCart, baseDb, exCart, findCart,
      validateItems, findProduct, pAlpha, pBeta])
  | ok r =>
    obtain ⟨o, db2, evs⟩ := r
    obtain ⟨ups, h1, h2, h3⟩ :=
      C6_amended_effect_order baseDb 5 exDto "ORD-77" 7 o db2 evs exCart hok rfl
    exact ⟨o, db2, evs, ups, rfl, h2, h3⟩

/-- A product flagged on-sale with a zero sale price, appearing in two cart
entries (different sizes). -/
def pDup : Product :=
  { id := 9, name := "Dup", price := 10, salePrice := some 0, isOnSale := true,
    images := [], stock := 5, isActive := true }

def ciDupM : CartItem := { productId := 9, quantity := 2, size := some "M", color := none }

def ciDupL : CartItem := { productId := 9, quantity := 1, size := some "L", color := none }

def dbDup : DB :=
  { products := [pDup]
    carts := [{ userId := 5, items := [ciDupM, ciDupL] }]
    orders := []
    users := [exUser] }

/-- Claim C3 counterexample: with a product flagged on-sale at sale price 0
appearing in two entries (qty 2 and 1, stock 5), checkout freezes the base
price 10 (not the sale price), and the final stock is 4 — the second
per-entry write overwrites the first — not 5 − 3 = 2 as the claim
requires. -/
theorem C3_counterexample :
    pDup.isOnSale = true ∧ pDup.salePrice = some 0 ∧ pDup.price = 10 ∧
    (checkoutOrder? dbDup 5 exDto "ORD-D" 13).map
        (fun o => o.items.map OrderItem.price) = some [10, 10] ∧
    (findProduct (checkoutDbAfter dbDup 5 exDto "ORD-D" 13) 9).map Product.stock
      = some 4 ∧
    (4 : ℕ) ≠ 5 - (2 + 1) := by
  refine ⟨rfl, rfl, rfl, ?_, ?_, by decide⟩
  · simp [checkoutOrder?, OrdersService.createOrderFromCart, dbDup, pDup, ciDupM, ciDupL,
      exDto, findCart, findUser, validateItems, findProduct, itemPrice]
  · simp [checkoutDbAfter, OrdersService.createOrderFromCart, dbDup, pDup, ciDupM, ciDupL,
      exDto, findCart, findUser, validateItems, findProduct, itemPrice,
      applyStockUpdates, setStock, clearCart, saveOrder]

/-- Claim C3 amended: for every cart with at least one entry, all products
active and each entry sufficiently stocked, checkout creates exactly one
pending order whose item count equals the entry count; each frozen item
price is `itemPrice` of its product (the sale price only when flagged
on-sale with a nonzero sale price present, the base price otherwise); the
stored subtotal and tax are the 2-decimal roundings of the raw Σ(price×qty)
and of raw-subtotal × 0.10; the cart is emptied; and for products occurring
in a single entry (pairwise-distinct product references) stock decreases by
exactly the ordered quantity — with the same product in several entries the
later per-entry write overwrites the earlier one. -/
theorem C3_amended_checkout_effects :
    ∀ db uid dto onum oid cart,
      findCart db uid = some cart →
      cart.items ≠ [] →
      (∀ ci ∈ cart.items, entryOK db ci) →
      ∃ o db2 evs,
        OrdersService.createOrderFromCart db uid dto onum oid = .ok (o, db2, evs) ∧
        db2.orders = db.orders ++ [o] ∧
        o.status = .pending ∧
        o.items.length = cart.items.length ∧
        (∀ oi ∈ o.items, ∃ p, findProduct db oi.productId = some p ∧
          oi.price = itemPrice p) ∧
        o.subtotal = round2 (rawSubtotal db cart.items) ∧
        o.tax = round2 (rawSubtotal db cart.items * (1 / 10)) ∧
        (findCart db2 uid).map Cart.items = some [] ∧
        ((cart.items.map CartItem.productId).Nodup →
          ∀ ci ∈ cart.items, ∀ p, findProduct db ci.productId = some p →
            (findProduct db2 ci.productId).map Product.stock
              = some (p.stock - ci.quantity)) := by
  intro db uid dto onum oid cart hcart hne hall
  obtain ⟨ois0, sub0, ups0, hv0⟩ := validateItems_ok_of_all db cart.items hall
  have hempty : cart.items.isEmpty = false := by
    cases hitems : cart.items with
    | nil => exact absurd hitems hne
    | cons a t => rfl
  cases hres : OrdersService.createOrderFromCart db uid dto onum oid with
  | error e =>
    exact absurd hres (by simp [OrdersService.createOrderFromCart, hcart, hempty, hv0])
  | ok r =>
    obtain ⟨o, db2, evs⟩ := r
    obtain ⟨cart1, ois, sub, ups, hcart1, -, hv, ho, hdb2, -⟩ :=
      createOrder_ok_inversion db uid dto onum oid o db2 evs hres
    rw [hcart] at hcart1
    cases hcart1
    obtain ⟨hlen, hsub, hff, hfu⟩ := validateItems_ok_spec db cart.items ois sub ups hv
    have huid : cart.userId = uid := by
      have := List.find?_some hcart
      simpa using this
    have hXcarts : (applyStockUpdates (saveOrder db o) ups).carts = db.carts := by
      rw [applyStockUpdates_carts]
      rfl
    refine ⟨o, db2, evs, rfl, ?_, by rw [ho], ?_, ?_, by rw [ho, hsub], by rw [ho, hsub], ?_, ?_⟩
    · rw [hdb2]
      show (applyStockUpdates (saveOrder db o) ups).orders = db.orders ++ [o]
      rw [applyStockUpdates_orders]
      rfl
    · rw [ho]
      exact hlen
    · intro oi hoi
      have hoi2 : oi ∈ ois := by rw [ho] at hoi; exact hoi
      obtain ⟨ci, hci, p, hp, hpid, hprice, -⟩ := forall₂_mem_right hff oi hoi2
      exact ⟨p, by rw [hpid]; exact hp, hprice⟩
    · rw [hdb2, findCart_clearCart]
      have : findCart (applyStockUpdates (saveOrder db o) ups) uid = some cart := by
        unfold findCart
        rw [hXcarts]
        exact hcart
      rw [this]
      simp [huid]
    · intro hnd ci hci p hp
      have hupmap : ups.map StockUpdate.productId = cart.items.map CartItem.productId :=
        forall₂_map_eq CartItem.productId StockUpdate.productId
          (fun a b hr => hr.choose_spec.2.1) hfu
      have hndu : (ups.map StockUpdate.productId).Nodup := by rw [hupmap]; exact hnd
      obtain ⟨up, hupmem, p2, hp2, hpidu, hnsu⟩ := forall₂_mem_left hfu ci hci
      rw [hp] at hp2
      cases hp2
      have hstep := applyStockUpdates_findProduct_nodup ups (saveOrder db o) up hndu hupmem
      have hsame : findProduct (saveOrder db o) up.productId = findProduct db up.productId := rfl
      rw [hsame, hpidu, hp] at hstep
      have hfinal : findProduct db2 ci.productId
          = findProduct (applyStockUpdates (saveOrder db o) ups) ci.productId := by
        rw [hdb2]
        rfl
      rw [hfinal, hstep]
      simp [hnsu]

/-- Claim C3 witness: the amended statement instantiated on the two-item
demo cart (distinct products, no sale). -/
theorem C3_witness :
    ∃ o db2 evs,
      OrdersService.createOrderFromCart baseDb 5 exDto "ORD-77" 7 = .ok (o, db2, evs) ∧
      db2.orders = baseDb.orders ++ [o] ∧
      o.status = .pending ∧
      o.items.length = exCart.items.length ∧
      (findCart db2 5).map Cart.items = some [] := by
  obtain ⟨o, db2, evs, hok, hord, hst, hlen, -, -, -, hclr, -⟩ :=
    C3_amended_checkout_effects baseDb 5 exDto "ORD-77" 7 exCart rfl
      (by simp [exCart])
      (by
        intro ci hci
        simp only [exCart, List.mem_cons, List.not_mem_nil, or_false] at hci
        rcases hci with rfl | rfl
        · exact ⟨pAlpha, rfl, rfl, by norm_num [pAlpha]⟩
        · exact ⟨pBeta, rfl, rfl, by norm_num [pBeta]⟩)
  exact ⟨o, db2, evs, hok, hord, hst, hlen, hclr⟩
